import Mathlib

/-!
Verification of the workflow-engine specification against the repository's
sample `src/samples/workflows/simple_workflow.py`.

The sample defines two custom executors (`GuessAgentExecutor`,
`JudgeAgentExecutor`) whose handler bodies are embedded here directly from
the Python source.  The engine they drive (graph builder, dispatcher run
loop, event stream) is not part of the repository's sources; those parts
are modelled from the specification (each such definition carries a
`Modelled from the spec:` doc comment).
-/

namespace Workflow

/-- Opaque executor identifier (spec §3: unique string id). -/
abbrev ExecutorId := String

/-- Chat message role (spec §3: enum USER, ASSISTANT, ...). -/
inductive ChatRole
  | user
  | assistant
  | system
deriving DecidableEq, Repr

/-- Chat message: role plus text (spec §3). -/
structure ChatMessage where
  role : ChatRole
  text : String
deriving DecidableEq, Repr

/-- Envelope payload kinds used by the samples (spec §3):
`StartText(string)` and `AgentResponse(sequence of ChatMessage)`. -/
inductive Payload
  | startText (s : String)
  | agentResponse (messages : List ChatMessage)
deriving DecidableEq, Repr

/-- The tag of a payload, used for handler lookup (spec §4.1). -/
inductive PayloadKind
  | startText
  | agentResponse
deriving DecidableEq, Repr

/-- Kind tag of a payload. -/
def Payload.kind : Payload → PayloadKind
  | .startText _ => .startText
  | .agentResponse _ => .agentResponse

/-- Mirror of `agent_framework` `AgentRunResponse`: the messages produced by
one agent run (only the `messages` field is used by the sample). -/
structure AgentRunResponse where
  messages : List ChatMessage
deriving DecidableEq, Repr

/-- Mirror of `AgentExecutorResponse` as consumed by the sample handlers:
it carries an `agent_run_response`. -/
structure AgentExecutorResponse where
  agent_run_response : AgentRunResponse
deriving DecidableEq, Repr

/-- Mirror of `AgentExecutorRequest(messages=..., should_respond=...)`. -/
structure AgentExecutorRequest where
  messages : List ChatMessage
  should_respond : Bool
deriving DecidableEq, Repr

/-- Python `str.lower()`: lowercase every character. -/
def pyLower (s : String) : String :=
  ⟨s.data.map Char.toLower⟩

/-- Python `str.strip()`: remove leading and trailing whitespace. -/
def pyStrip (s : String) : String :=
  ⟨((s.data.dropWhile Char.isWhitespace).reverse.dropWhile Char.isWhitespace).reverse⟩

/-- The observable action of one sample-handler invocation: the Python
handlers either call `ctx.add_event(WorkflowCompletedEvent(data=...))` and
return, or build a request and call `self.run(request, ctx)`. -/
inductive HandlerStep
  | addCompleted (data : String)
  | runRequest (request : AgentExecutorRequest)
deriving DecidableEq, Repr

/-- `GuessAgentExecutor.handle_start_message` from the source: wraps the
start string as a USER chat message and runs the agent on it. -/
def GuessAgentExecutor.handle_start_message (message : String) : HandlerStep :=
  HandlerStep.runRequest
    { messages := [{ role := ChatRole.user, text := message }], should_respond := true }

/-- `GuessAgentExecutor.handle_judge_response` from the source:
`if messages and messages[-1].text.lower().strip() == "correct"` emit the
completed event, otherwise forward the messages as a new request.  The
last-element access is guarded by the emptiness test, exactly as the
short-circuiting Python conditional guards `messages[-1]`. -/
def GuessAgentExecutor.handle_judge_response (response : AgentExecutorResponse) : HandlerStep :=
  let messages := response.agent_run_response.messages
  if h : messages ≠ [] then
    if pyStrip (pyLower (messages.getLast h).text) = "correct" then
      HandlerStep.addCompleted "Number guessing game completed successfully!"
    else
      HandlerStep.runRequest { messages := messages, should_respond := true }
  else
    HandlerStep.runRequest { messages := messages, should_respond := true }

/-- `JudgeAgentExecutor.handle_guess_response` from the source: always
forwards the received messages as a new request with `should_respond=True`. -/
def JudgeAgentExecutor.handle_guess_response (response : AgentExecutorResponse) : HandlerStep :=
  let messages := response.agent_run_response.messages
  HandlerStep.runRequest { messages := messages, should_respond := true }

/-- Run-level error taxonomy (spec §7). -/
inductive WfError
  | workflowStalled
  | unhandledPayloadKind (executor : ExecutorId)
  | backendError (detail : String)
deriving DecidableEq, Repr

/-- What a handler invocation emits, in order (spec §4.1): zero or more
output envelopes and/or a single terminal completed/failed event. -/
inductive Emission
  | out (p : Payload)
  | completed (data : String)
  | failed (e : WfError)
deriving DecidableEq, Repr

/-- Whether an emission is a terminal (completed/failed) event. -/
def Emission.isTerminalEmission : Emission → Bool
  | .out _ => false
  | .completed _ => true
  | .failed _ => true

/-- Events of the run's event stream (spec §3 RunEvent). -/
inductive RunEvent
  | produced (executor : ExecutorId) (p : Payload)
  | completed (data : String)
  | failed (e : WfError)
deriving DecidableEq, Repr

/-- Whether a run event is terminal (spec §3: Completed or Failed). -/
def RunEvent.isTerminal : RunEvent → Bool
  | .produced _ _ => false
  | .completed _ => true
  | .failed _ => true

/-- Modelled from the spec: `AgentExecutor.run` (not in the repository's
sources) performs the backend call `respond(messages) -> messages` (spec §6)
on the request and emits the resulting `AgentExecutorResponse` envelope
downstream. -/
def AgentExecutor.run (respond : List ChatMessage → List ChatMessage)
    (request : AgentExecutorRequest) : List Emission :=
  [Emission.out (Payload.agentResponse (respond request.messages))]

/-- The emissions produced by one sample-handler action: adding the
completed event emits exactly that terminal event; running a request goes
through the (spec-modelled) `AgentExecutor.run`. -/
def HandlerStep.emissions (respond : List ChatMessage → List ChatMessage) :
    HandlerStep → List Emission
  | .addCompleted d => [Emission.completed d]
  | .runRequest req => AgentExecutor.run respond req

/-- Directed routing edge (spec §3). -/
structure Edge where
  src : ExecutorId
  tgt : ExecutorId
deriving DecidableEq, Repr

/-- Built graph: edge list (declaration order preserved, spec §5) plus the
designated start executor (spec §3). -/
structure Graph where
  edges : List Edge
  start : ExecutorId
deriving DecidableEq, Repr

/-- Build-time error taxonomy (spec §7 GraphBuildError). -/
inductive GraphBuildError
  | missingStart
  | emptyGraph
  | badEdgeEndpoint
deriving DecidableEq, Repr

/-- Modelled from the spec: the builder state accumulated by
`addEdge`/`setStart` before `build()` (spec §4.2). -/
structure WorkflowBuilder where
  executors : List ExecutorId := []
  edges : List Edge := []
  start : Option ExecutorId := none
deriving DecidableEq, Repr

/-- Register an executor id, keeping the list duplicate-free. -/
def registerId (xs : List ExecutorId) (x : ExecutorId) : List ExecutorId :=
  if x ∈ xs then xs else xs ++ [x]

/-- Modelled from the spec: `addEdge(from, to)` appends an Edge; duplicate
edges are idempotent — the builder dedupes identical `(from,to)` pairs at
insertion (spec §4.2).  Passing an executor to `add_edge` also registers it,
as in the sample's fluent builder usage. -/
def WorkflowBuilder.add_edge (b : WorkflowBuilder) (f t : ExecutorId) : WorkflowBuilder :=
  { b with
    executors := registerId (registerId b.executors f) t
    edges := if Edge.mk f t ∈ b.edges then b.edges else b.edges ++ [Edge.mk f t] }

/-- Modelled from the spec: `setStart(executor)` sets the unique start
point; calling it twice replaces the previous value, last write wins
(spec §4.2). -/
def WorkflowBuilder.set_start_executor (b : WorkflowBuilder) (e : ExecutorId) : WorkflowBuilder :=
  { b with executors := registerId b.executors e, start := some e }

/-- Modelled from the spec: `build()` validates that a start is set, the
graph is non-empty, and every edge endpoint is a registered executor id;
any violation fails with a `GraphBuildError` and produces no Graph
(spec §4.2). -/
def WorkflowBuilder.build (b : WorkflowBuilder) : Except GraphBuildError Graph :=
  match b.start with
  | none => Except.error GraphBuildError.missingStart
  | some s =>
    if b.executors.isEmpty then Except.error GraphBuildError.emptyGraph
    else if b.edges.all (fun e => b.executors.contains e.src && b.executors.contains e.tgt) then
      Except.ok { edges := b.edges, start := s }
    else Except.error GraphBuildError.badEdgeEndpoint

/-- Modelled from the spec: the handler environment — for each executor id,
the mapping from accepted payload kind to handler (spec §4.1); `σ` is the
type of per-executor local state, and a handler returns its ordered
emissions plus the updated local state.  Backend responses are baked into
the handler functions, so a fixed environment is exactly "identical
(mocked) backend responses". -/
structure Env (σ : Type) where
  handlers : ExecutorId → PayloadKind → Option (Payload → σ → List Emission × σ)

/-- Modelled from the spec: dispatcher run-loop state — the FIFO work queue
of pending `(target, payload)` deliveries, the per-executor local states,
and the events emitted so far in emission order (spec §4.3). -/
structure RunState (σ : Type) where
  queue : List (ExecutorId × Payload)
  locals : ExecutorId → σ
  events : List RunEvent

/-- Modelled from the spec: the fan-out of an emission — the targets of all
edges whose `from` equals the emitting executor's id, in edge-declaration
order (spec §4.3, §5). -/
def fanOut (edges : List Edge) (src : ExecutorId) : List ExecutorId :=
  (edges.filter (fun e => e.src == src)).map Edge.tgt

/-- Modelled from the spec: processing of one invocation's ordered
emissions (spec §4.1, §4.3).  Returns the run events to append, the new
queue entries (one per matching outgoing edge, declaration order), and the
terminal event if one was emitted — at the first terminal emission the
dispatcher stops, so later emissions are abandoned. -/
def processEmissions (edges : List Edge) (src : ExecutorId) :
    List Emission → List RunEvent × List (ExecutorId × Payload) × Option RunEvent
  | [] => ([], [], none)
  | Emission.out p :: rest =>
    let r := processEmissions edges src rest
    (RunEvent.produced src p :: r.1,
     (fanOut edges src).map (fun d => (d, p)) ++ r.2.1,
     r.2.2)
  | Emission.completed d :: _ => ([RunEvent.completed d], [], some (RunEvent.completed d))
  | Emission.failed e :: _ => ([RunEvent.failed e], [], some (RunEvent.failed e))

/-- Outcome of one dispatcher step: continue with a new state, or finish
with the final event stream. -/
inductive StepOut (σ : Type)
  | next (s : RunState σ)
  | done (events : List RunEvent)

/-- Modelled from the spec: one iteration of the dispatcher core loop
(spec §4.3).  An empty queue with no terminal event is a stall and yields
`Failed{WorkflowStalled}`; a payload kind with no registered handler fails
with `UnhandledPayloadKind` attributed to the executor id; otherwise the
handler runs, its emissions are processed, and either the run finishes at a
terminal event (queued work abandoned) or the fan-out is enqueued FIFO. -/
def step {σ : Type} (g : Graph) (env : Env σ) (s : RunState σ) : StepOut σ :=
  match s.queue with
  | [] => StepOut.done (s.events ++ [RunEvent.failed WfError.workflowStalled])
  | (target, payload) :: rest =>
    match env.handlers target payload.kind with
    | none =>
      StepOut.done (s.events ++ [RunEvent.failed (WfError.unhandledPayloadKind target)])
    | some h =>
      let hr := h payload (s.locals target)
      let pr := processEmissions g.edges target hr.1
      match pr.2.2 with
      | some _ => StepOut.done (s.events ++ pr.1)
      | none =>
        StepOut.next
          { queue := rest ++ pr.2.1
            locals := fun i => if i = target then hr.2 else s.locals i
            events := s.events ++ pr.1 }

/-- Modelled from the spec: the dispatcher run loop, iterated with explicit
fuel (the spec places no bound on iteration count, so the loop need not
terminate; `none` means the given fuel was exhausted before the run
finished). -/
def runLoop {σ : Type} (g : Graph) (env : Env σ) : Nat → RunState σ → Option (List RunEvent)
  | 0, _ => none
  | n + 1, s =>
    match step g env s with
    | StepOut.done evs => some evs
    | StepOut.next s2 => runLoop g env n s2

/-- Modelled from the spec: the initial run state of `runStreaming(seed)` —
the seed payload is delivered to the start executor (spec §4.3). -/
def initState {σ : Type} (g : Graph) (inits : ExecutorId → σ) (seed : Payload) : RunState σ :=
  { queue := [(g.start, seed)], locals := inits, events := [] }

/-- A one-executor graph with no edges, used for concrete runs. -/
def demoGraph : Graph := { edges := [], start := "a" }

/-- Environment whose handlers accept every payload kind and emit nothing. -/
def silentEnv : Env Unit := ⟨fun _ _ => some (fun _ _ => ([], ()))⟩

/-- Environment with no registered handlers at all. -/
def noHandlerEnv : Env Unit := ⟨fun _ _ => none⟩

/-- Environment whose handlers always forward their payload unchanged. -/
def forwardEnv : Env Unit := ⟨fun _ _ => some (fun p _ => ([Emission.out p], ()))⟩

/-- A two-executor cycle, the shape of the sample's guesser/judge graph. -/
def cycleGraph : Graph := { edges := [Edge.mk "a" "b", Edge.mk "b" "a"], start := "a" }

/-- Modelled from the spec: the complete-run relation — `Runs g env s evs`
holds when iterating the dispatcher step from `s` finishes with final event
stream `evs`. -/
inductive Runs {σ : Type} (g : Graph) (env : Env σ) : RunState σ → List RunEvent → Prop
  | done (s : RunState σ) (evs : List RunEvent) :
      step g env s = StepOut.done evs → Runs g env s evs
  | next (s s2 : RunState σ) (evs : List RunEvent) :
      step g env s = StepOut.next s2 → Runs g env s2 evs → Runs g env s evs

/-- A run that finishes within its fuel is a complete run. -/
theorem runLoop_sound {σ : Type} (g : Graph) (env : Env σ) :
    ∀ (n : Nat) (s : RunState σ) (evs : List RunEvent),
      runLoop g env n s = some evs → Runs g env s evs := by
  intro n
  induction n with
  | zero => intro s evs h; simp [runLoop] at h
  | succ n ih =>
    intro s evs h
    rw [runLoop] at h
    cases hs : step g env s with
    | done evs2 =>
      rw [hs] at h
      have he : evs2 = evs := by injection h
      subst he
      exact Runs.done s evs2 hs
    | next s2 =>
      rw [hs] at h
      exact Runs.next s s2 evs hs (ih s2 evs h)

/-- An id is a member after registering it. -/
theorem mem_registerId_self (xs : List ExecutorId) (x : ExecutorId) : x ∈ registerId xs x := by
  unfold registerId
  split
  · assumption
  · simp

/-- Registration preserves existing members. -/
theorem mem_registerId_of_mem {xs : List ExecutorId} {a : ExecutorId} (y : ExecutorId)
    (h : a ∈ xs) : a ∈ registerId xs y := by
  unfold registerId
  split
  · exact h
  · simp [h]

/-- Registering an id already present is a no-op. -/
theorem registerId_eq_of_mem {xs : List ExecutorId} {x : ExecutorId} (h : x ∈ xs) :
    registerId xs x = xs := by
  unfold registerId
  simp [h]

/-- When emission processing reports no terminal event, every produced run
event is non-terminal. -/
theorem processEmissions_none (edges : List Edge) (src : ExecutorId) :
    ∀ ems : List Emission, (processEmissions edges src ems).2.2 = none →
      ∀ e ∈ (processEmissions edges src ems).1, e.isTerminal = false := by
  intro ems
  induction ems with
  | nil => intro _ e he; simp [processEmissions] at he
  | cons em rest ih =>
    cases em with
    | out p =>
      intro hnone e he
      simp only [processEmissions] at hnone he
      rcases List.mem_cons.mp he with he2 | he2
      · subst he2; rfl
      · exact ih hnone e he2
    | completed d => intro hnone; simp [processEmissions] at hnone
    | failed er => intro hnone; simp [processEmissions] at hnone

/-- When emission processing reports a terminal event, the produced run
events are some non-terminal events followed by exactly that terminal. -/
theorem processEmissions_some (edges : List Edge) (src : ExecutorId) :
    ∀ (ems : List Emission) (t : RunEvent),
      (processEmissions edges src ems).2.2 = some t →
      t.isTerminal = true ∧ ∃ pre, (processEmissions edges src ems).1 = pre ++ [t]
        ∧ ∀ e ∈ pre, e.isTerminal = false := by
  intro ems
  induction ems with
  | nil => intro t ht; simp [processEmissions] at ht
  | cons em rest ih =>
    cases em with
    | out p =>
      intro t ht
      simp only [processEmissions] at ht ⊢
      obtain ⟨hterm, pre, hpre, hne⟩ := ih t ht
      refine ⟨hterm, RunEvent.produced src p :: pre, by simp [hpre], ?_⟩
      intro e he
      rcases List.mem_cons.mp he with he2 | he2
      · subst he2; rfl
      · exact hne e he2
    | completed d =>
      intro t ht
      simp only [processEmissions, Option.some.injEq] at ht
      subst ht
      exact ⟨rfl, [], rfl, by intro e he; simp at he⟩
    | failed er =>
      intro t ht
      simp only [processEmissions, Option.some.injEq] at ht
      subst ht
      exact ⟨rfl, [], rfl, by intro e he; simp at he⟩

/-- A finishing step emits a final stream that is some non-terminal events
followed by exactly one terminal event. -/
theorem step_done_terminal {σ : Type} (g : Graph) (env : Env σ) (s : RunState σ)
    (evs : List RunEvent)
    (hne : ∀ e ∈ s.events, e.isTerminal = false)
    (h : step g env s = StepOut.done evs) :
    ∃ pre t, evs = pre ++ [t] ∧ t.isTerminal = true ∧ ∀ e ∈ pre, e.isTerminal = false := by
  obtain ⟨qu, locals, events⟩ := s
  simp only at hne
  cases qu with
  | nil =>
    simp only [step] at h
    injection h with h
    exact ⟨events, RunEvent.failed WfError.workflowStalled, h.symm, rfl, hne⟩
  | cons hd rest =>
    obtain ⟨target, payload⟩ := hd
    cases hh : env.handlers target payload.kind with
    | none =>
      simp only [step, hh] at h
      injection h with h
      exact ⟨events, RunEvent.failed (WfError.unhandledPayloadKind target), h.symm, rfl, hne⟩
    | some hf =>
      cases hterm : (processEmissions g.edges target (hf payload (locals target)).1).2.2 with
      | none => simp only [step, hh, hterm] at h; exact StepOut.noConfusion h
      | some t =>
        simp only [step, hh, hterm] at h
        injection h with h
        obtain ⟨htermt, pre, hpre, hprene⟩ :=
          processEmissions_some g.edges target (hf payload (locals target)).1 t hterm
        refine ⟨events ++ pre, t, ?_, htermt, ?_⟩
        · rw [← h, hpre, List.append_assoc]
        · intro e he
          rcases List.mem_append.mp he with he | he
          · exact hne e he
          · exact hprene e he

/-- A continuing step preserves the invariant that no emitted event so far
is terminal. -/
theorem step_next_preserves {σ : Type} (g : Graph) (env : Env σ) (s s2 : RunState σ)
    (hne : ∀ e ∈ s.events, e.isTerminal = false)
    (h : step g env s = StepOut.next s2) :
    ∀ e ∈ s2.events, e.isTerminal = false := by
  obtain ⟨qu, locals, events⟩ := s
  simp only at hne
  cases qu with
  | nil => simp only [step] at h; exact StepOut.noConfusion h
  | cons hd rest =>
    obtain ⟨target, payload⟩ := hd
    cases hh : env.handlers target payload.kind with
    | none => simp only [step, hh] at h; exact StepOut.noConfusion h
    | some hf =>
      cases hterm : (processEmissions g.edges target (hf payload (locals target)).1).2.2 with
      | some t => simp only [step, hh, hterm] at h; exact StepOut.noConfusion h
      | none =>
        simp only [step, hh, hterm] at h
        injection h with h
        subst h
        intro e he
        simp only at he
        rcases List.mem_append.mp he with he | he
        · exact hne e he
        · exact processEmissions_none g.edges target _ hterm e he

/-- Any run that finishes ends its stream with exactly one terminal event,
preceded only by non-terminal events. -/
theorem runLoop_terminal {σ : Type} (g : Graph) (env : Env σ) :
    ∀ (n : Nat) (s : RunState σ) (evs : List RunEvent),
      (∀ e ∈ s.events, e.isTerminal = false) →
      runLoop g env n s = some evs →
      ∃ pre t, evs = pre ++ [t] ∧ t.isTerminal = true ∧ ∀ e ∈ pre, e.isTerminal = false := by
  intro n
  induction n with
  | zero => intro s evs _ h; simp [runLoop] at h
  | succ n ih =>
    intro s evs hne h
    rw [runLoop] at h
    cases hs : step g env s with
    | done evs2 =>
      rw [hs] at h
      have he : evs2 = evs := by injection h
      subst he
      exact step_done_terminal g env s evs2 hne hs
    | next s2 =>
      rw [hs] at h
      exact ih s2 evs (step_next_preserves g env s s2 hne hs) h

/-- In the two-executor always-forwarding cycle, the run loop never
finishes, whatever fuel it is given. -/
theorem cycle_runLoop_none :
    ∀ (n : Nat) (x : ExecutorId) (p : Payload) (l : ExecutorId → Unit) (ev : List RunEvent),
      x = "a" ∨ x = "b" →
      runLoop cycleGraph forwardEnv n ⟨[(x, p)], l, ev⟩ = none := by
  intro n
  induction n with
  | zero => intro x p l ev _; rfl
  | succ n ih =>
    intro x p l ev hx
    rcases hx with hx | hx <;> subst hx
    · calc runLoop cycleGraph forwardEnv (n + 1) ⟨[("a", p)], l, ev⟩
          = runLoop cycleGraph forwardEnv n
              ⟨[("b", p)], fun _ => (), ev ++ [RunEvent.produced "a" p]⟩ := rfl
      _ = none := ih "b" p _ _ (Or.inr rfl)
    · calc runLoop cycleGraph forwardEnv (n + 1) ⟨[("b", p)], l, ev⟩
          = runLoop cycleGraph forwardEnv n
              ⟨[("a", p)], fun _ => (), ev ++ [RunEvent.produced "b" p]⟩ := rfl
      _ = none := ih "a" p _ _ (Or.inl rfl)

/-- C2 (amended): whenever the event stream returned by a run of the
dispatcher ends, its last item is a terminal Completed or Failed event and
every earlier event is non-terminal, so no event occurs after the first
terminal event (work still queued then is abandoned, not executed). -/
theorem C2_stream_ends_with_terminal {σ : Type} (g : Graph) (env : Env σ) (fuel : Nat)
    (inits : ExecutorId → σ) (seed : Payload) (evs : List RunEvent)
    (h : runLoop g env fuel (initState g inits seed) = some evs) :
    ∃ pre t, evs = pre ++ [t] ∧ t.isTerminal = true ∧ ∀ e ∈ pre, e.isTerminal = false :=
  runLoop_terminal g env fuel (initState g inits seed) evs
    (by intro e he; simp [initState] at he) h

/-- C2 witness: a concrete finishing run (the silent one-executor graph)
ends its stream with a terminal event. -/
theorem C2_stream_ends_with_terminal_witness :
    ∃ pre t, [RunEvent.failed WfError.workflowStalled] = pre ++ [t]
      ∧ t.isTerminal = true ∧ ∀ e ∈ pre, e.isTerminal = false :=
  C2_stream_ends_with_terminal demoGraph silentEnv 2 (fun _ => ())
    (Payload.startText "go") [RunEvent.failed WfError.workflowStalled] rfl

/-- C2 counterexample: the claim also asserts that every run's event stream
is finite, but in the two-executor always-forwarding cycle (a well-formed
graph) the run loop never returns no matter how much fuel it is given, so
that run's stream never ends and never reaches a terminal event. -/
theorem C2_infinite_run_counterexample :
    ¬ ∃ (n : Nat) (evs : List RunEvent),
        runLoop cycleGraph forwardEnv n
          (initState cycleGraph (fun _ => ()) (Payload.startText "start")) = some evs := by
  rintro ⟨n, evs, h⟩
  have h0 : runLoop cycleGraph forwardEnv n
      (initState cycleGraph (fun _ => ()) (Payload.startText "start")) = none :=
    cycle_runLoop_none n "a" (Payload.startText "start") (fun _ => ()) [] (Or.inl rfl)
  rw [h0] at h
  exact Option.noConfusion h

/-- C3: when the work queue drains with no terminal event emitted, the
dispatcher emits `Failed{WorkflowStalled}` rather than hanging or
returning silently; in particular, when the start executor's handler
emits no output and no terminal event, `Failed{WorkflowStalled}` is the
sole item of the event stream. -/
theorem C3_stall_detection {σ : Type} (g : Graph) (env : Env σ) (inits : ExecutorId → σ)
    (seed : Payload) (hf : Payload → σ → List Emission × σ) (n : Nat)
    (hh : env.handlers g.start seed.kind = some hf)
    (hempty : (hf seed (inits g.start)).1 = []) :
    (∀ s : RunState σ, s.queue = [] →
        step g env s = StepOut.done (s.events ++ [RunEvent.failed WfError.workflowStalled]))
    ∧ runLoop g env (n + 2) (initState g inits seed)
        = some [RunEvent.failed WfError.workflowStalled] := by
  constructor
  · intro s hqs
    obtain ⟨qu, locals, events⟩ := s
    simp only at hqs
    subst hqs
    rfl
  · have hstep : step g env (initState g inits seed) = StepOut.next
        { queue := []
          locals := fun i => if i = g.start then (hf seed (inits g.start)).2 else inits i
          events := [] } := by
      simp only [step, initState, hh, hempty, processEmissions, List.append_nil,
        List.nil_append]
    calc runLoop g env (n + 2) (initState g inits seed)
        = runLoop g env (n + 1)
            ⟨[], fun i => if i = g.start then (hf seed (inits g.start)).2 else inits i, []⟩ := by
          show runLoop g env ((n + 1) + 1) (initState g inits seed) = _
          rw [runLoop, hstep]
      _ = some [RunEvent.failed WfError.workflowStalled] := rfl

/-- C4: the dispatcher run loop is deterministic — two complete runs from
the same starting state of the same graph with the same handler
environment (hence identical seed and identical mocked backend responses)
produce equal event streams. -/
theorem C4_run_deterministic {σ : Type} (g : Graph) (env : Env σ) (s : RunState σ)
    (evs1 evs2 : List RunEvent)
    (h1 : Runs g env s evs1) (h2 : Runs g env s evs2) : evs1 = evs2 := by
  revert evs2
  induction h1 with
  | done s0 e0 h =>
    intro evs2 h2
    cases h2 with
    | done _ _ hb =>
      rw [h] at hb
      injection hb with he
    | next _ s2b _ hb _ =>
      rw [h] at hb
      exact StepOut.noConfusion hb
  | next s0 s2 e0 hstep _ ih =>
    intro evs2 h2
    cases h2 with
    | done _ _ hb =>
      rw [hstep] at hb
      exact StepOut.noConfusion hb
    | next _ s2b _ hb hr2 =>
      rw [hstep] at hb
      injection hb with hs
      subst hs
      exact ih evs2 hr2

/-- C4 witness: two complete runs of the concrete silent graph from the
same seed produce the same stream. -/
theorem C4_run_deterministic_witness :
    ([RunEvent.failed WfError.workflowStalled] : List RunEvent)
      = [RunEvent.failed WfError.workflowStalled] :=
  C4_run_deterministic demoGraph silentEnv
    (initState demoGraph (fun _ => ()) (Payload.startText "go")) _ _
    (runLoop_sound demoGraph silentEnv 2 _ _ rfl)
    (runLoop_sound demoGraph silentEnv 2 _ _ rfl)

/-- C1: when the last message of the judge's response normalizes
(lowercased, whitespace-stripped) to "correct", the guesser's
`handle_judge_response` performs exactly the single terminal Completed
action: its emissions are one Completed event and no output envelope, and
dispatcher processing of those emissions enqueues nothing and ends at that
terminal event — so no Produced event of this invocation follows it. -/
theorem C1_sentinel_match_completes (respond : List ChatMessage → List ChatMessage)
    (r : AgentExecutorResponse) (m : ChatMessage)
    (hlast : r.agent_run_response.messages.getLast? = some m)
    (hcorrect : pyStrip (pyLower m.text) = "correct") :
    GuessAgentExecutor.handle_judge_response r
        = HandlerStep.addCompleted "Number guessing game completed successfully!"
    ∧ (GuessAgentExecutor.handle_judge_response r).emissions respond
        = [Emission.completed "Number guessing game completed successfully!"]
    ∧ ∀ (edges : List Edge) (eid : ExecutorId),
        processEmissions edges eid
            ((GuessAgentExecutor.handle_judge_response r).emissions respond)
          = ([RunEvent.completed "Number guessing game completed successfully!"], [],
             some (RunEvent.completed "Number guessing game completed successfully!")) := by
  have hne : r.agent_run_response.messages ≠ [] := by
    intro h0
    rw [h0] at hlast
    simp at hlast
  have hm : r.agent_run_response.messages.getLast hne = m := by
    have hg := List.getLast?_eq_getLast r.agent_run_response.messages hne
    rw [hg] at hlast
    injection hlast
  have hstep : GuessAgentExecutor.handle_judge_response r
      = HandlerStep.addCompleted "Number guessing game completed successfully!" := by
    simp only [GuessAgentExecutor.handle_judge_response]
    rw [dif_pos hne, hm]
    rw [if_pos hcorrect]
  refine ⟨hstep, ?_, ?_⟩
  · rw [hstep]
    rfl
  · intro edges eid
    rw [hstep]
    rfl

/-- C1 witness: a concrete judge response whose last message is "Correct ". -/
theorem C1_sentinel_match_completes_witness :
    (GuessAgentExecutor.handle_judge_response
        ⟨⟨[⟨ChatRole.assistant, "Correct "⟩]⟩⟩).emissions id
      = [Emission.completed "Number guessing game completed successfully!"] :=
  (C1_sentinel_match_completes id ⟨⟨[⟨ChatRole.assistant, "Correct "⟩]⟩⟩
      ⟨ChatRole.assistant, "Correct "⟩ rfl (by decide)).2.1

/-- C3 witness: the silent one-executor graph stalls and
`Failed{WorkflowStalled}` is the sole stream item. -/
theorem C3_stall_detection_witness :
    step demoGraph silentEnv ⟨[], fun _ => (), []⟩
        = StepOut.done [RunEvent.failed WfError.workflowStalled]
    ∧ runLoop demoGraph silentEnv 2 (initState demoGraph (fun _ => ()) (Payload.startText "go"))
        = some [RunEvent.failed WfError.workflowStalled] :=
  ⟨(C3_stall_detection demoGraph silentEnv (fun _ => ()) (Payload.startText "go") _ 0
        rfl rfl).1 ⟨[], fun _ => (), []⟩ rfl,
   (C3_stall_detection demoGraph silentEnv (fun _ => ()) (Payload.startText "go") _ 0
        rfl rfl).2⟩

/-- C5: edge insertion is idempotent — adding the same (from,to) edge twice
yields the same builder as adding it once (no error, the duplicate is
deduped at insertion), hence identical runtime fan-out for every emitting
executor. -/
theorem C5_add_edge_idempotent (b : WorkflowBuilder) (f t : ExecutorId) :
    (b.add_edge f t).add_edge f t = b.add_edge f t
    ∧ ∀ src, fanOut ((b.add_edge f t).add_edge f t).edges src
        = fanOut (b.add_edge f t).edges src := by
  have hfX : f ∈ (b.add_edge f t).executors := by
    simp only [WorkflowBuilder.add_edge]
    exact mem_registerId_of_mem t (mem_registerId_self b.executors f)
  have htX : t ∈ (b.add_edge f t).executors := by
    simp only [WorkflowBuilder.add_edge]
    exact mem_registerId_self _ t
  have hmem : Edge.mk f t ∈ (b.add_edge f t).edges := by
    simp only [WorkflowBuilder.add_edge]
    split
    · assumption
    · simp
  have hmain : (b.add_edge f t).add_edge f t = b.add_edge f t := by
    show ({ b.add_edge f t with
      executors := registerId (registerId (b.add_edge f t).executors f) t
      edges := if Edge.mk f t ∈ (b.add_edge f t).edges then (b.add_edge f t).edges
               else (b.add_edge f t).edges ++ [Edge.mk f t] } : WorkflowBuilder)
      = b.add_edge f t
    rw [registerId_eq_of_mem hfX, registerId_eq_of_mem htX, if_pos hmem]
  exact ⟨hmain, fun src => by rw [hmain]⟩

/-- C5 witness: idempotence at a concrete builder and edge. -/
theorem C5_add_edge_idempotent_witness :
    ((({} : WorkflowBuilder).add_edge "a" "b").add_edge "a" "b")
      = ({} : WorkflowBuilder).add_edge "a" "b" :=
  (C5_add_edge_idempotent {} "a" "b").1

/-- C6: delivering an envelope whose payload kind has no registered handler
on the target executor fails with `UnhandledPayloadKind` attributed to that
executor's id, and the failure surfaces as the run-level Failed event that
ends the stream — the loop stops, the error is neither swallowed nor
retried. -/
theorem C6_unhandled_payload_kind {σ : Type} (g : Graph) (env : Env σ) (s : RunState σ)
    (target : ExecutorId) (payload : Payload) (rest : List (ExecutorId × Payload)) (n : Nat)
    (hq : s.queue = (target, payload) :: rest)
    (hnone : env.handlers target payload.kind = none) :
    step g env s
        = StepOut.done (s.events ++ [RunEvent.failed (WfError.unhandledPayloadKind target)])
    ∧ runLoop g env (n + 1) s
        = some (s.events ++ [RunEvent.failed (WfError.unhandledPayloadKind target)]) := by
  obtain ⟨qu, locals, events⟩ := s
  simp only at hq
  subst hq
  have hstep : step g env ⟨(target, payload) :: rest, locals, events⟩
      = StepOut.done (events ++ [RunEvent.failed (WfError.unhandledPayloadKind target)]) := by
    simp only [step, hnone]
  exact ⟨hstep, by rw [runLoop, hstep]⟩

/-- C6 witness: the handlerless environment fails on the seed delivery and
the run ends with that failure. -/
theorem C6_unhandled_payload_kind_witness :
    step demoGraph noHandlerEnv ⟨[("a", Payload.startText "x")], fun _ => (), []⟩
        = StepOut.done [RunEvent.failed (WfError.unhandledPayloadKind "a")]
    ∧ runLoop demoGraph noHandlerEnv 1 ⟨[("a", Payload.startText "x")], fun _ => (), []⟩
        = some [RunEvent.failed (WfError.unhandledPayloadKind "a")] :=
  C6_unhandled_payload_kind demoGraph noHandlerEnv _ "a" (Payload.startText "x") [] 0 rfl rfl

/-- C7: an envelope emitted by an executor with zero outgoing edges is
dropped — its fan-out is empty, nothing is enqueued for it, only the
Produced event is recorded, and the step continues without error. -/
theorem C7_no_outgoing_edges_drops {σ : Type} (g : Graph) (env : Env σ) (s : RunState σ)
    (target : ExecutorId) (payload q : Payload) (rest : List (ExecutorId × Payload))
    (hf : Payload → σ → List Emission × σ)
    (hq : s.queue = (target, payload) :: rest)
    (hh : env.handlers target payload.kind = some hf)
    (hout : (hf payload (s.locals target)).1 = [Emission.out q])
    (hnoedge : ∀ e ∈ g.edges, e.src ≠ target) :
    fanOut g.edges target = []
    ∧ step g env s = StepOut.next
        { queue := rest
          locals := fun i => if i = target then (hf payload (s.locals target)).2 else s.locals i
          events := s.events ++ [RunEvent.produced target q] } := by
  have hfan : fanOut g.edges target = [] := by
    unfold fanOut
    have h0 : g.edges.filter (fun e => e.src == target) = [] := by
      rw [List.filter_eq_nil_iff]
      intro e he
      simp [hnoedge e he]
    rw [h0]
    rfl
  refine ⟨hfan, ?_⟩
  obtain ⟨qu, locals, events⟩ := s
  simp only at hq hout ⊢
  subst hq
  simp only [step, hh, hout, processEmissions, hfan, List.map_nil, List.nil_append,
    List.append_nil]

/-- C7 witness: in the edgeless demo graph the forwarded envelope is
dropped and only the Produced event is recorded. -/
theorem C7_no_outgoing_edges_drops_witness :
    fanOut demoGraph.edges "a" = []
    ∧ step demoGraph forwardEnv ⟨[("a", Payload.startText "x")], fun _ => (), []⟩
        = StepOut.next
            { queue := []
              locals := fun _ => ()
              events := [RunEvent.produced "a" (Payload.startText "x")] } :=
  C7_no_outgoing_edges_drops demoGraph forwardEnv _ "a" (Payload.startText "x")
    (Payload.startText "x") [] _ rfl rfl rfl (by intro e he; simp [demoGraph] at he)

/-- Helper: a successful build produces a graph whose start is the
builder's start field. -/
theorem build_ok_start {b : WorkflowBuilder} {s : ExecutorId} {g : Graph}
    (hs : b.start = some s) (h : b.build = Except.ok g) : g.start = s := by
  simp only [WorkflowBuilder.build, hs] at h
  split at h
  · exact Except.noConfusion h
  · split at h
    · injection h with h1
      rw [← h1]
    · exact Except.noConfusion h

/-- C8: setStart is last-write-wins — after setting start to `a2` and then
`b2`, the builder's designated start is `b2` and a successful build yields
a graph starting at `b2`; and `build()` fails with a GraphBuildError
(missing start) when no start was ever set. -/
theorem C8_set_start_last_write_wins (b : WorkflowBuilder) (a2 b2 : ExecutorId) :
    ((b.set_start_executor a2).set_start_executor b2).start = some b2
    ∧ (∀ c : WorkflowBuilder, c.start = none →
        c.build = Except.error GraphBuildError.missingStart)
    ∧ (∀ g : Graph,
        ((b.set_start_executor a2).set_start_executor b2).build = Except.ok g →
        g.start = b2) := by
  refine ⟨rfl, ?_, ?_⟩
  · intro c hc
    unfold WorkflowBuilder.build
    rw [hc]
  · intro g hg
    exact build_ok_start rfl hg

/-- C8 witness: concrete builder — start replaced by the second call, the
startless builder rejected, and the built graph starts at "b". -/
theorem C8_set_start_last_write_wins_witness :
    ((({} : WorkflowBuilder).set_start_executor "a").set_start_executor "b").start = some "b"
    ∧ ({} : WorkflowBuilder).build = Except.error GraphBuildError.missingStart
    ∧ (Graph.mk [] "b").start = "b" :=
  ⟨(C8_set_start_last_write_wins {} "a" "b").1,
   (C8_set_start_last_write_wins {} "a" "b").2.1 {} rfl,
   (C8_set_start_last_write_wins {} "a" "b").2.2 (Graph.mk [] "b") rfl⟩

/-- C9: the judge's handler always forwards — it emits exactly one
`AgentExecutorRequest` carrying the received messages unchanged with
`should_respond = true`, its emissions are a single output envelope, and
it never emits a terminal Completed/Failed event, so in the two-executor
cycle only the guesser can end the run. -/
theorem C9_judge_always_forwards (respond : List ChatMessage → List ChatMessage)
    (r : AgentExecutorResponse) :
    JudgeAgentExecutor.handle_guess_response r
        = HandlerStep.runRequest
            { messages := r.agent_run_response.messages, should_respond := true }
    ∧ (JudgeAgentExecutor.handle_guess_response r).emissions respond
        = [Emission.out (Payload.agentResponse (respond r.agent_run_response.messages))]
    ∧ ((JudgeAgentExecutor.handle_guess_response r).emissions respond).filter
        Emission.isTerminalEmission = [] :=
  ⟨rfl, rfl, rfl⟩

/-- C10: on a response with an empty message list the guesser's handler
takes the guarded branch — the last-message access is never made (the
emptiness test guards it and the embedding is total by construction), no
Completed is emitted, and the empty message list is forwarded as a
request. -/
theorem C10_empty_messages_forwarded (r : AgentExecutorResponse)
    (h : r.agent_run_response.messages = []) :
    GuessAgentExecutor.handle_judge_response r
        = HandlerStep.runRequest
            { messages := r.agent_run_response.messages, should_respond := true }
    ∧ ∀ d, GuessAgentExecutor.handle_judge_response r ≠ HandlerStep.addCompleted d := by
  have hnn : ¬ r.agent_run_response.messages ≠ [] := by simp [h]
  have h1 : GuessAgentExecutor.handle_judge_response r
      = HandlerStep.runRequest
          { messages := r.agent_run_response.messages, should_respond := true } := by
    simp only [GuessAgentExecutor.handle_judge_response]
    rw [dif_neg hnn]
  exact ⟨h1, fun d hd => by rw [h1] at hd; exact HandlerStep.noConfusion hd⟩

/-- C10 witness: the empty-message response is forwarded unchanged. -/
theorem C10_empty_messages_forwarded_witness :
    GuessAgentExecutor.handle_judge_response ⟨⟨[]⟩⟩
      = HandlerStep.runRequest { messages := [], should_respond := true } :=
  (C10_empty_messages_forwarded ⟨⟨[]⟩⟩ rfl).1

end Workflow
